import Mathlib

/-!
Shallow embedding of the Q-learning agent of `src/agent/agent.py`
(classes `Q_State` and `Agent`).

Modelling conventions:
* Python floats are modelled as rationals (`ℚ`); the constants `0.1` and
  `0.9` become `1/10` and `9/10`.
* Python dicts are modelled as insertion-ordered association lists, so
  that `max` over a dict (which returns the first maximal element in
  insertion order) and dict assignment (which keeps the position of an
  existing key and appends a fresh key) are modelled faithfully.
* Python `None` flowing through `prev_action` / the `max(..., default=None)`
  fallback is modelled with `Option`.
* Calls to `random.choice`, `random.uniform(0, 2)` and `random.uniform(0, 1)`
  are modelled by passing their results in explicitly (a `Rand` record),
  which makes every function deterministic and executable.
* The file system behind `load` / `save` is modelled as an
  `Option QTable` parameter (the parsed contents of the named file, or
  `none` when the file does not exist); `save` calls are recorded in a
  boolean flag of the result of `choose_action`.
-/

namespace Frogger

/-- Modelled from the spec: the class `State` (imported in agent.py as
`from .state import State`) is not among the sources.  Per the spec it
exposes a grid query by coordinates that is bounds-checked and returns an
empty sentinel out of range (modelled as `Option Char`, `none` standing
for Python's falsy empty result), the agent's own grid coordinates
(`frog_x`, `frog_y`), and the terminal/goal/score flags used by
`Q_State.reward`. -/
structure State where
  get : Int → Int → Option Char
  frog_x : Int
  frog_y : Int
  at_goal : Bool
  is_done : Bool
  score : ℚ

/-- Modelled from the spec: `State.ACTIONS`, the fixed action vocabulary
{up, down, left, right, none}, written with the one-character strings that
`Agent.initialize_q_table` uses as table keys. -/
def ACTIONS : List Char := ['u', 'd', 'l', 'r', '_']

/-- Python's `x or '_'` applied to a grid query result: the empty sentinel
is replaced by the underscore placeholder character. -/
def orUnderscore : Option Char → Char
  | none => '_'
  | some c => c

namespace Q_State

/-- Embeds `Q_State._compute_key`: the eight cells around the frog, in the
source's fixed order, joined into a string with `'_'` for empty cells. -/
def compute_key (s : State) : String :=
  String.mk [
    orUnderscore (s.get (s.frog_x - 1) (s.frog_y - 1)),
    orUnderscore (s.get s.frog_x (s.frog_y - 1)),
    orUnderscore (s.get (s.frog_x + 1) (s.frog_y - 1)),
    orUnderscore (s.get (s.frog_x - 1) s.frog_y),
    orUnderscore (s.get (s.frog_x + 1) s.frog_y),
    orUnderscore (s.get (s.frog_x - 1) (s.frog_y + 1)),
    orUnderscore (s.get s.frog_x (s.frog_y + 1)),
    orUnderscore (s.get (s.frog_x + 1) (s.frog_y + 1))
  ]

/-- Embeds `Q_State.reward`. -/
def reward (s : State) : ℚ :=
  if s.at_goal then s.score
  else if s.is_done then -10
  else 0

end Q_State

/-- A Q-table entry: one Python dict mapping action characters to values,
kept in insertion order. -/
abbrev QEntry := List (Char × ℚ)

/-- The Q-table: a Python dict mapping state-key strings to entries, kept
in insertion order. -/
abbrev QTable := List (String × QEntry)

/-- Python `d.get(k)` on an entry dict. -/
def lookup_entry : QEntry → Char → Option ℚ
  | [], _ => none
  | (b, w) :: rest, a => if b = a then some w else lookup_entry rest a

/-- Python `d.get(k)` on the table dict. -/
def lookup_table : QTable → String → Option QEntry
  | [], _ => none
  | (k, e) :: rest, key => if k = key then some e else lookup_table rest key

/-- Python `d[k] = v` on an entry dict: an existing key keeps its position,
a fresh key is appended. -/
def set_entry : QEntry → Char → ℚ → QEntry
  | [], a, v => [(a, v)]
  | (b, w) :: rest, a, v =>
    if b = a then (a, v) :: rest else (b, w) :: set_entry rest a v

/-- Python `d[k] = v` on the table dict. -/
def set_table : QTable → String → QEntry → QTable
  | [], key, e => [(key, e)]
  | (k, e0) :: rest, key, e =>
    if k = key then (key, e) :: rest else (k, e0) :: set_table rest key e

/-- Python `max(d, key=d.get, default=None)`: the first key attaining the
maximal value in iteration order, `none` on an empty dict. -/
def dict_argmax : QEntry → Option Char
  | [] => none
  | (a, v) :: rest => some (dict_argmax_from a v rest)
where
  /-- The running-maximum loop of Python's `max`: a later element replaces
  the current best only when strictly greater. -/
  dict_argmax_from (best : Char) (bestv : ℚ) : QEntry → Char
  | [] => best
  | (a, v) :: rest =>
    if bestv < v then dict_argmax_from a v rest
    else dict_argmax_from best bestv rest

/-- Python `max(d.values(), default=0)`. -/
def max_values : QEntry → ℚ
  | [] => 0
  | (_, v) :: rest => max_values_from v rest
where
  max_values_from (best : ℚ) : QEntry → ℚ
  | [] => best
  | (_, v) :: rest => if best < v then max_values_from v rest
                      else max_values_from best rest

/-- Embeds `self.learning_rate = 0.1`, set once in `Agent.__init__` and
never written again. -/
def learning_rate : ℚ := 1 / 10

/-- Embeds `self.discount_factor = 0.9`, set once in `Agent.__init__` and
never written again. -/
def discount_factor : ℚ := 9 / 10

/-- Embeds the `exploration_rate = 0.1` local of `Agent.choose_action`. -/
def exploration_rate : ℚ := 1 / 10

/-- The mutable fields of a Python `Agent` object that the learning core
reads and writes.  `prev_state` holds the parsed previous state description
(the source stores the raw string and re-parses it; the parse is
deterministic, so storing the state is equivalent), `prev_action` the
previously returned action — `none` models Python `None`.  `train` is the
truthiness of the `train` constructor argument. -/
structure Agent where
  train : Bool
  q : QTable
  prev_state : Option State
  prev_action : Option Char

/-- Embeds `Agent.__init__` together with `Agent.load`.  The file system is
a parameter: `fs` is the parsed contents of the agent's named table file,
or `none` when opening it raises `IOError`.  A raised exception is
modelled as `Except.error`. -/
def Agent.construct (train : Bool) (fs : Option QTable) : Except String Agent :=
  match fs with
  | some t =>
    Except.ok { train := train, q := t, prev_state := none, prev_action := none }
  | none =>
    if train then
      Except.ok { train := train, q := [], prev_state := none, prev_action := none }
    else
      Except.error "File does not exist"

/-- Embeds `Agent.initialize_q_table`.  `seed` is the value returned by the
`random.uniform(0, 1)` call inside it. -/
def Agent.initialize_q_table (ag : Agent) (seed : ℚ) : Agent :=
  match ag.prev_state with
  | none => ag
  | some ps =>
    let key := Q_State.compute_key ps
    match lookup_table ag.q key with
    | some _ => ag
    | none =>
      let base : QEntry := [('u', 0), ('d', 0), ('l', 0), ('r', 0), ('_', 0)]
      match ag.prev_action with
      | none => { ag with q := set_table ag.q key base }
      | some a => { ag with q := set_table ag.q key (set_entry base a seed) }

/-- Embeds `Agent.update_q_table`.  The source reads `self.prev_state` and
`self.prev_action`; it is only ever called when both are non-`None`, so the
embedding takes them as `ps` and `pa`.  The trailing `self.save()` call is
reported by the caller (`choose_action`), not here. -/
def Agent.update_q_table (ag : Agent) (ps : State) (pa : Char)
    (reward : ℚ) (next : State) : Agent :=
  let alpha := learning_rate
  let gamma := discount_factor
  let current_q := (lookup_entry ((lookup_table ag.q (Q_State.compute_key ps)).getD []) pa).getD 0
  let max_next_q := max_values ((lookup_table ag.q (Q_State.compute_key next)).getD [])
  let new_q := (1 - alpha) * current_q + alpha * (reward + gamma * max_next_q)
  let key := Q_State.compute_key ps
  let q1 := match lookup_table ag.q key with
    | some _ => ag.q
    | none => set_table ag.q key []
  { ag with q := set_table q1 key (set_entry ((lookup_table q1 key).getD []) pa new_q) }

/-- The results of the random calls a single `choose_action` invocation can
make: `first_choice` and `explore_choice` are the `random.choice(State.ACTIONS)`
results of the first-move branch and of the exploration branch, `draw` the
`random.uniform(0, 2)` sample, and `seed` the `random.uniform(0, 1)` sample
consumed by `initialize_q_table`. -/
structure Rand where
  first_choice : Char
  draw : ℚ
  explore_choice : Char
  seed : ℚ

/-- What one `choose_action` call produces: the updated agent object, the
returned value (`none` models returning Python `None`), and whether
`self.save()` was called during the step. -/
structure ChooseResult where
  agent : Agent
  action : Option Char
  saved : Bool

/-- Embeds `Agent.choose_action`.  The first-move branch assigns
`chosen_action`, but the exploration/exploitation block that follows is not
guarded by an `else` in the source and reassigns it on both of its
branches, exactly as modelled by the shadowing `let`. -/
def Agent.choose_action (ag : Agent) (s : State) (r : Rand) : ChooseResult :=
  let current_key := Q_State.compute_key s
  let chosen_action : Option Char :=
    if ag.prev_state.isNone || ag.prev_action.isNone then some r.first_choice
    else none
  let chosen_action : Option Char :=
    if r.draw < exploration_rate then some r.explore_choice
    else dict_argmax ((lookup_table ag.q current_key).getD [])
  let ag1 := ag.initialize_q_table r.seed
  let step : Agent × Bool :=
    match ag.prev_state, ag.prev_action with
    | some ps, some pa =>
      (ag1.update_q_table ps pa (Q_State.reward s) s, true)
    | _, _ => (ag1, false)
  { agent := { step.1 with prev_state := some s, prev_action := chosen_action },
    action := chosen_action,
    saved := step.2 }

/-! Helper lemmas about the dict model. -/

/-- Looking up the key just written by `set_table` yields the written entry. -/
theorem lookup_set_table (q : QTable) (k : String) (e : QEntry) :
    lookup_table (set_table q k e) k = some e := by
  induction q with
  | nil => simp [set_table, lookup_table]
  | cons kv rest ih =>
    obtain ⟨k0, e0⟩ := kv
    by_cases h : k0 = k
    · simp [set_table, lookup_table, h]
    · simp [set_table, lookup_table, h, ih]

/-- Looking up the action just written by `set_entry` yields the written value. -/
theorem lookup_set_entry (e : QEntry) (a : Char) (v : ℚ) :
    lookup_entry (set_entry e a v) a = some v := by
  induction e with
  | nil => simp [set_entry, lookup_entry]
  | cons bw rest ih =>
    obtain ⟨b, w⟩ := bw
    by_cases h : b = a
    · simp [set_entry, lookup_entry, h]
    · simp [set_entry, lookup_entry, h, ih]

/-- `set_entry` leaves the value of every other action unchanged. -/
theorem lookup_set_entry_ne (e : QEntry) (a b : Char) (v : ℚ) (hab : b ≠ a) :
    lookup_entry (set_entry e a v) b = lookup_entry e b := by
  have hab' : a ≠ b := Ne.symm hab
  induction e with
  | nil => simp [set_entry, lookup_entry, hab']
  | cons cw rest ih =>
    obtain ⟨c, w⟩ := cw
    by_cases hca : c = a
    · subst hca
      simp [set_entry, lookup_entry, hab']
    · simp [set_entry, hca, lookup_entry, ih]

/-- Writing an action that is already present keeps the entry's key list. -/
theorem set_entry_keys (e : QEntry) (a : Char) (v : ℚ)
    (h : lookup_entry e a ≠ none) :
    (set_entry e a v).map Prod.fst = e.map Prod.fst := by
  induction e with
  | nil => simp [lookup_entry] at h
  | cons cw rest ih =>
    obtain ⟨c, w⟩ := cw
    by_cases hca : c = a
    · subst hca
      simp [set_entry]
    · simp only [lookup_entry, if_neg hca] at h
      simp [set_entry, hca, ih h]

/-! Concrete fixtures used to instantiate the theorems. -/

/-- A concrete state description: an empty board with the frog at the
origin and no flag set.  Its key is `"________"`. -/
def emptyState : State :=
  { get := fun _ _ => none, frog_x := 0, frog_y := 0,
    at_goal := false, is_done := false, score := 0 }

/-- The agent object right after `Agent.__init__` ran in training mode with
no table file on disk: empty table, no previous transition. -/
def freshAgent : Agent :=
  { train := true, q := [], prev_state := none, prev_action := none }

/-- The empty board's key: eight placeholder characters. -/
theorem key_emptyState : Q_State.compute_key emptyState = "________" := by decide

/-- An agent that has already taken one step: previous state recorded,
previous action `'u'`, table still empty. -/
def c1Agent : Agent :=
  { train := true, q := [], prev_state := some emptyState, prev_action := some 'u' }

/-- C1: when a previous transition exists (both `prev_state` and
`prev_action` are set), `choose_action` applies the one-step Q-learning
update through `update_q_table` against the previous (key, action) pair;
`update_q_table` writes to that pair the value
`(1 - alpha) * current_q + alpha * (reward + gamma * max_next_q)`, where
`alpha = 1/10` and `gamma = 9/10` are the agent's fixed constants,
`current_q` is the table value at the previous key and action with `0` as
the default when the key or the action is missing, and `max_next_q` is the
maximum over the next key's entry with `0` as the default when the key is
missing or its entry is empty; in particular the update expression at
`current_q = 0`, `max_next_q = 0`, `reward = -10` equals `-1`, and at
`current_q = 5`, `max_next_q = 10`, `reward = 0` it equals `27/5 = 5.4`. -/
theorem C1_update_rule :
    (∀ (ag : Agent) (s : State) (r : Rand) (ps : State) (pa : Char),
      ag.prev_state = some ps → ag.prev_action = some pa →
      (ag.choose_action s r).agent.q
        = ((ag.initialize_q_table r.seed).update_q_table ps pa
            (Q_State.reward s) s).q ∧ (ag.choose_action s r).saved = true) ∧
    (∀ (ag : Agent) (ps : State) (pa : Char) (rew : ℚ) (next : State),
      lookup_entry
          ((lookup_table (ag.update_q_table ps pa rew next).q
            (Q_State.compute_key ps)).getD []) pa
        = some ((1 - learning_rate)
              * ((lookup_entry ((lookup_table ag.q (Q_State.compute_key ps)).getD [])
                  pa).getD 0)
            + learning_rate * (rew + discount_factor *
              max_values ((lookup_table ag.q (Q_State.compute_key next)).getD [])))) ∧
    learning_rate = 1 / 10 ∧ discount_factor = 9 / 10 ∧
    (1 - learning_rate) * 0 + learning_rate * (-10 + discount_factor * 0) = -1 ∧
    (1 - learning_rate) * 5 + learning_rate * (0 + discount_factor * 10) = 27 / 5 := by
  refine ⟨?_, ?_, rfl, rfl, by norm_num [learning_rate, discount_factor],
    by norm_num [learning_rate, discount_factor]⟩
  · intro ag s r ps pa h1 h2
    simp [Agent.choose_action, h1, h2]
  · intro ag ps pa rew next
    simp [Agent.update_q_table, lookup_set_table, lookup_set_entry]

/-- Witness for C1 at a concrete agent that has a previous transition. -/
theorem C1_update_rule_witness :
    (c1Agent.choose_action emptyState ⟨'u', 1, 'u', 0⟩).agent.q
      = ((c1Agent.initialize_q_table (0 : ℚ)).update_q_table emptyState 'u'
          (Q_State.reward emptyState) emptyState).q ∧
    (c1Agent.choose_action emptyState ⟨'u', 1, 'u', 0⟩).saved = true :=
  C1_update_rule.1 c1Agent emptyState ⟨'u', 1, 'u', 0⟩ emptyState 'u' rfl rfl

/-- C2 counter-evidence: the claim says every `choose_action` call returns
a member of the fixed action set and the null fallback is never returned;
on a freshly constructed training agent with no saved table (empty
Q-table) and a non-exploring draw (`uniform(0,2)` returning `1`), the
exploitation branch runs `max` over the missing current key's empty dict
with `default=None`, and that `None` is returned to the caller. -/
theorem C2_returns_none :
    Agent.construct true none = Except.ok freshAgent ∧
    (freshAgent.choose_action emptyState ⟨'u', 1, 'u', 0⟩).action = none ∧
    ∀ a ∈ ACTIONS, (freshAgent.choose_action emptyState ⟨'u', 1, 'u', 0⟩).action ≠ some a := by
  have h : (freshAgent.choose_action emptyState ⟨'u', 1, 'u', 0⟩).action = none := by
    norm_num [Agent.choose_action, Agent.initialize_q_table, exploration_rate,
      freshAgent, lookup_table, dict_argmax]
  exact ⟨rfl, h, by simp [h]⟩

/-- C3 counter-evidence: on the very first call of a freshly constructed
agent the claim's no-update half holds (the table stays empty and nothing
is saved), but the returned action is not the uniformly random draw: the
first-move branch's choice (`'u'` here) is unconditionally overwritten by
the exploration/exploitation block, which on a non-exploring draw returns
the `None` fallback instead of a member of the action set. -/
theorem C3_first_call_overwritten :
    (freshAgent.choose_action emptyState ⟨'u', 1, 'd', 0⟩).action ≠ some 'u' ∧
    (freshAgent.choose_action emptyState ⟨'u', 1, 'd', 0⟩).action = none ∧
    (freshAgent.choose_action emptyState ⟨'u', 1, 'd', 0⟩).agent.q = [] ∧
    (freshAgent.choose_action emptyState ⟨'u', 1, 'd', 0⟩).saved = false := by
  have h : (freshAgent.choose_action emptyState ⟨'u', 1, 'd', 0⟩).action = none := by
    norm_num [Agent.choose_action, Agent.initialize_q_table, exploration_rate,
      freshAgent, lookup_table, dict_argmax]
  refine ⟨by simp [h], h, ?_, ?_⟩ <;>
    norm_num [Agent.choose_action, Agent.initialize_q_table, freshAgent]

/-- An agent mid-episode whose table already has an entry for the empty
board's key, with `'d'` its only (hence maximal) action. -/
def c4Agent : Agent :=
  { train := true, q := [("________", [('d', 5)])],
    prev_state := some emptyState, prev_action := some 'd' }

/-- C4 counter-evidence: the claim puts the exploration probability at 10%
of the uniform draw's range, but the source compares a `uniform(0, 2)` draw
against `0.1`, so exploration happens on 5% of the range: the draw `3/20`
lies within the first 10% of `[0, 2]` (`(3/20)/2 < 1/10`), yet the
exploration test `3/20 < 0.1` fails and the call exploits, returning the
table's argmax `'d'` rather than the exploration choice `'u'`. -/
theorem C4_exploration_is_five_percent :
    ((3 : ℚ) / 20) / 2 < exploration_rate ∧
    ¬ ((3 : ℚ) / 20 < exploration_rate) ∧
    (c4Agent.choose_action emptyState ⟨'u', 3 / 20, 'u', 0⟩).action = some 'd' := by
  refine ⟨by norm_num [exploration_rate], by norm_num [exploration_rate], ?_⟩
  norm_num [Agent.choose_action, Agent.initialize_q_table, exploration_rate, c4Agent,
    lookup_table, dict_argmax, dict_argmax.dict_argmax_from, key_emptyState]

/-- C5: `Q_State.reward` is a pure function of the current state: a state
flagged at-goal yields its score, a state flagged done but not at-goal
yields `-10`, and every other state yields `0`. -/
theorem C5_reward_cases (s : State) :
    (s.at_goal = true → Q_State.reward s = s.score) ∧
    (s.at_goal = false → s.is_done = true → Q_State.reward s = -10) ∧
    (s.at_goal = false → s.is_done = false → Q_State.reward s = 0) := by
  refine ⟨fun h => ?_, fun h1 h2 => ?_, fun h1 h2 => ?_⟩ <;>
    simp [Q_State.reward, *]

/-- A state at the goal with score 7. -/
def goalState : State :=
  { get := fun _ _ => none, frog_x := 0, frog_y := 0,
    at_goal := true, is_done := true, score := 7 }

/-- A terminal state that is not at the goal. -/
def doneState : State :=
  { get := fun _ _ => none, frog_x := 0, frog_y := 0,
    at_goal := false, is_done := true, score := 7 }

/-- Witness for C5: the three reward cases at concrete states. -/
theorem C5_reward_cases_witness :
    Q_State.reward goalState = 7 ∧ Q_State.reward doneState = -10 ∧
    Q_State.reward emptyState = 0 :=
  ⟨(C5_reward_cases goalState).1 rfl, (C5_reward_cases doneState).2.1 rfl rfl,
   (C5_reward_cases emptyState).2.2 rfl rfl⟩

/-- The eight relative offsets read by `_compute_key`, in the source's
fixed left-to-right, top-to-bottom order. -/
def neighborhood_offsets : List (Int × Int) :=
  [(-1, -1), (0, -1), (1, -1), (-1, 0), (1, 0), (-1, 1), (0, 1), (1, 1)]

/-- The contents of the eight cells around the agent's position. -/
def neighborhood (s : State) : List (Option Char) :=
  neighborhood_offsets.map fun o => s.get (s.frog_x + o.1) (s.frog_y + o.2)

/-- C6: the key is the concatenation, in the fixed left-to-right,
top-to-bottom order, of the eight grid cells around the agent's position
with the placeholder substituted for empty or out-of-bounds cells, so any
two states with identical 8-cell neighborhoods around their respective
agent positions map to the same key, independent of every other field. -/
theorem C6_key_from_neighborhood :
    (∀ s : State, Q_State.compute_key s
      = String.mk ((neighborhood s).map orUnderscore)) ∧
    (∀ s1 s2 : State, neighborhood s1 = neighborhood s2 →
      Q_State.compute_key s1 = Q_State.compute_key s2) := by
  have key_eq : ∀ s : State,
      Q_State.compute_key s = String.mk ((neighborhood s).map orUnderscore) := by
    intro s
    simp [Q_State.compute_key, neighborhood, neighborhood_offsets, sub_eq_add_neg]
  exact ⟨key_eq, fun s1 s2 h => by rw [key_eq, key_eq, h]⟩

/-- The empty board again, but with the frog elsewhere and every
non-neighborhood field different from `emptyState`. -/
def shiftedState : State :=
  { get := fun _ _ => none, frog_x := 9, frog_y := -4,
    at_goal := true, is_done := true, score := 42 }

/-- Witness for C6: two states with the same (all-empty) neighborhood but
different positions, flags and scores share a key. -/
theorem C6_key_from_neighborhood_witness :
    Q_State.compute_key emptyState = Q_State.compute_key shiftedState :=
  C6_key_from_neighborhood.2 emptyState shiftedState rfl

/-- C7: construction raises exactly when the agent is not in training mode
and the named table file is absent; in training mode a failed load is
tolerated and the table starts empty, and a successful load in either mode
installs the file's contents. -/
theorem C7_load_contract :
    (∀ (train : Bool) (fs : Option QTable),
      (∃ msg, Agent.construct train fs = Except.error msg)
        ↔ train = false ∧ fs = none) ∧
    (∃ ag, Agent.construct true none = Except.ok ag ∧ ag.q = []) ∧
    (∀ (train : Bool) (t : QTable),
      ∃ ag, Agent.construct train (some t) = Except.ok ag ∧ ag.q = t) := by
  refine ⟨?_, ⟨_, rfl, rfl⟩, fun train t => ⟨_, rfl, rfl⟩⟩
  intro train fs
  cases fs with
  | some t => simp [Agent.construct]
  | none => cases train <;> simp [Agent.construct]

/-- Witness for C7 at concrete mode/file-system combinations. -/
theorem C7_load_contract_witness :
    (∃ msg, Agent.construct false none = Except.error msg) ∧
    (∃ ag, Agent.construct true none = Except.ok ag ∧ ag.q = []) ∧
    (∃ ag, Agent.construct false (some [("k", [('u', 1)])]) = Except.ok ag
      ∧ ag.q = [("k", [('u', 1)])]) :=
  ⟨(C7_load_contract.1 false none).2 ⟨rfl, rfl⟩,
   C7_load_contract.2.1,
   C7_load_contract.2.2 false [("k", [('u', 1)])]⟩

/-- `set_table` always yields a non-empty dict. -/
theorem set_table_ne_nil (q : QTable) (k : String) (e : QEntry) :
    set_table q k e ≠ [] := by
  cases q with
  | nil => simp [set_table]
  | cons kv rest =>
    obtain ⟨k0, e0⟩ := kv
    by_cases h : k0 = k <;> simp [set_table, h]

/-- Any call with a previous transition recorded leaves a non-empty table:
the update writes unconditionally. -/
theorem choose_action_q_ne_nil (ag : Agent) (s : State) (r : Rand)
    (ps : State) (pa : Char)
    (h1 : ag.prev_state = some ps) (h2 : ag.prev_action = some pa) :
    (ag.choose_action s r).agent.q ≠ [] := by
  simp [Agent.choose_action, Agent.update_q_table, h1, h2, set_table_ne_nil]

/-- The agent object `Agent.__init__` produces in non-training mode when
the named table file exists and holds an empty table. -/
def nonTrainAgent : Agent :=
  { train := false, q := [], prev_state := none, prev_action := none }

/-- C8 counter-evidence: the claim says the table is read-only and never
saved outside training mode, but `choose_action` runs `initialize_q_table`
and `update_q_table` (which ends in `self.save()`) without consulting
`self.train`: starting from a constructed non-training agent, an exploring
first call followed by an ordinary second call mutates the table (it
becomes non-empty) and triggers a save. -/
theorem C8_nontraining_mutates :
    Agent.construct false (some []) = Except.ok nonTrainAgent ∧
    nonTrainAgent.train = false ∧
    ((nonTrainAgent.choose_action emptyState ⟨'u', 0, 'd', 0⟩).agent.choose_action
        emptyState ⟨'u', 1, 'u', 1/2⟩).saved = true ∧
    ((nonTrainAgent.choose_action emptyState ⟨'u', 0, 'd', 0⟩).agent.choose_action
        emptyState ⟨'u', 1, 'u', 1/2⟩).agent.q ≠ [] := by
  have h1 : (nonTrainAgent.choose_action emptyState ⟨'u', 0, 'd', 0⟩).agent
      = { train := false, q := [], prev_state := some emptyState,
          prev_action := some 'd' } := by
    norm_num [Agent.choose_action, Agent.initialize_q_table, exploration_rate,
      nonTrainAgent]
  refine ⟨rfl, rfl, ?_, ?_⟩
  · rw [h1]
    simp [Agent.choose_action]
  · rw [h1]
    exact choose_action_q_ne_nil _ emptyState _ emptyState 'd' rfl rfl

/-- C9: lazy initialization of the previous key's entry creates one entry
per action in the fixed set, each zero, except the most recently taken
action (if any), which receives the `uniform(0, 1)` seed; on an
already-present key it changes nothing. -/
theorem C9_lazy_init (ag : Agent) (ps : State) (seed : ℚ)
    (hps : ag.prev_state = some ps) :
    (∀ e, lookup_table ag.q (Q_State.compute_key ps) = some e →
      ag.initialize_q_table seed = ag) ∧
    (lookup_table ag.q (Q_State.compute_key ps) = none →
      (ag.prev_action = none →
        lookup_table (ag.initialize_q_table seed).q (Q_State.compute_key ps)
          = some (ACTIONS.map fun a => (a, 0))) ∧
      (∀ a, ag.prev_action = some a → a ∈ ACTIONS → 0 ≤ seed → seed < 1 →
        ∃ e, lookup_table (ag.initialize_q_table seed).q (Q_State.compute_key ps)
            = some e ∧
          e.map Prod.fst = ACTIONS ∧
          ∀ b ∈ ACTIONS, lookup_entry e b = some (if b = a then seed else 0))) := by
  constructor
  · intro e he
    simp [Agent.initialize_q_table, hps, he]
  · intro hnone
    constructor
    · intro hpa
      simp [Agent.initialize_q_table, hps, hnone, hpa, lookup_set_table, ACTIONS]
    · intro a hpa ha h0 h1
      refine ⟨set_entry [('u', 0), ('d', 0), ('l', 0), ('r', 0), ('_', 0)] a seed,
        ?_, ?_, ?_⟩
      · simp [Agent.initialize_q_table, hps, hnone, hpa, lookup_set_table]
      · rw [set_entry_keys]
        · rfl
        · fin_cases ha <;> simp [lookup_entry]
      · intro b hb
        by_cases hba : b = a
        · subst hba
          simp [lookup_set_entry]
        · rw [lookup_set_entry_ne _ _ _ _ hba, if_neg hba]
          fin_cases hb <;> fin_cases ha <;> simp_all [lookup_entry]

/-- An agent one step into an episode that has not seen its previous key:
previous action `'d'`, empty table. -/
def c9Agent : Agent :=
  { train := true, q := [], prev_state := some emptyState, prev_action := some 'd' }

/-- Witness for C9: seeding the empty table for the empty board's key with
previous action `'d'` and seed `1/2`. -/
theorem C9_lazy_init_witness :
    ∃ e, lookup_table (c9Agent.initialize_q_table (1 / 2)).q
        (Q_State.compute_key emptyState) = some e ∧
      e.map Prod.fst = ACTIONS ∧
      ∀ b ∈ ACTIONS, lookup_entry e b = some (if b = 'd' then 1 / 2 else 0) :=
  ((C9_lazy_init c9Agent emptyState (1 / 2) rfl).2 rfl).2 'd' rfl (by decide)
    (by norm_num) (by norm_num)

/-- C10: when the previous call stored the null fallback as the previous
action, the next call skips the Q-update entirely (no save), and lazy
initialization seeds no random value: the previous key's fresh entry is
all-zero and the table changes in no other way, so the transition's reward
is dropped. -/
theorem C10_null_action_drops_reward (ag : Agent) (s : State) (r : Rand)
    (ps : State) (hps : ag.prev_state = some ps)
    (hpa : ag.prev_action = none)
    (habs : lookup_table ag.q (Q_State.compute_key ps) = none) :
    (ag.choose_action s r).saved = false ∧
    (ag.choose_action s r).agent.q
      = set_table ag.q (Q_State.compute_key ps) (ACTIONS.map fun a => (a, 0)) := by
  constructor <;>
    simp [Agent.choose_action, Agent.initialize_q_table, hps, hpa, habs, ACTIONS]

/-- The agent state the null-action fallback leaves behind: previous state
recorded, previous action `None`, table still empty. -/
def c10Agent : Agent :=
  { train := true, q := [], prev_state := some emptyState, prev_action := none }

/-- Witness for C10: after a call that stored the null action, the next
call saves nothing and only adds the all-zero entry. -/
theorem C10_null_action_drops_reward_witness :
    (c10Agent.choose_action emptyState ⟨'u', 1, 'u', 1/2⟩).saved = false ∧
    (c10Agent.choose_action emptyState ⟨'u', 1, 'u', 1/2⟩).agent.q
      = set_table c10Agent.q (Q_State.compute_key emptyState)
          (ACTIONS.map fun a => (a, 0)) :=
  C10_null_action_drops_reward c10Agent emptyState ⟨'u', 1, 'u', 1/2⟩ emptyState
    rfl rfl rfl

end Frogger
